import Mathlib

/-!
# Verification of the aklp-file CRUD file service

Shallow embedding of the repository `next-gen-dist-sys/aklp-file`:
a small HTTP service storing binary files with metadata, backed by a
relational table.  The embedding mirrors

* `src/app/models/file.py`        — the `File` ORM model,
* `src/app/services/file_service.py` — the `FileService` operations,
* `src/app/api/v1/endpoints/files.py` — the HTTP endpoints,
* `src/app/schemas/file.py`       — the response schemas,
* `src/app/core/config.py`        — the `MAX_FILE_SIZE` setting.

Modelling conventions:

* Bytes are `List Nat` (one entry per byte); `len(content)` is `List.length`.
* UUIDs are opaque, modelled as `Nat`.
* Timestamps are `Nat`; the database clock value at the time of a call is
  passed in as `now`.
* The database table is a `List FileRecord` (`Store`).
* SQLAlchemy flush semantics: the ORM emits an `UPDATE` for a row only when
  some column's value actually changed (setting an attribute to a value
  equal to the stored one produces empty history and no `UPDATE`), and the
  column-level `onupdate=func.now()` of `updated_at` fires only when such
  an `UPDATE` is emitted.  Service operations therefore refresh
  `updated_at` exactly when some mutable column's new value differs from
  the stored one.
-/

/-- One row of the `files` table (`src/app/models/file.py`, class `File`). -/
structure FileRecord where
  id : Nat
  filename : String
  content_type : String
  size : Nat
  content : List Nat
  session_id : Option Nat
  description : Option String
  created_at : Nat
  updated_at : Nat
deriving Repr, DecidableEq

/-- The `files` table: the persistent store of file records. -/
abbrev Store := List FileRecord

/-- `src/app/schemas/file.py`, class `FileUpdate`: the PATCH body; a `none`
field means "not supplied" (pydantic default `None`). -/
structure FileUpdate where
  filename : Option String
  description : Option String
deriving Repr, DecidableEq

namespace FileService

/-- `FileService.create`: build a new row with `size = len(content)`,
both timestamps set to the call time (`default=func.now()` on both
columns), and insert it.  The generated primary key is passed as
`newId` (the code uses `uuid4`). -/
def create (now newId : Nat) (filename content_type : String)
    (content : List Nat) (session_id : Option Nat)
    (description : Option String) (s : Store) : FileRecord × Store :=
  let file : FileRecord :=
    { id := newId
      filename := filename
      content_type := content_type
      size := content.length
      content := content
      session_id := session_id
      description := description
      created_at := now
      updated_at := now }
  (file, s ++ [file])

/-- `FileService.get_by_id`: `SELECT ... WHERE File.id == file_id`,
`scalar_one_or_none`. -/
def get_by_id (file_id : Nat) (s : Store) : Option FileRecord :=
  s.find? (fun r => r.id == file_id)

/-- The rows matching an optional `session_id` filter (the `WHERE`
clause applied to both the page query and the count query in
`FileService.get_list`). -/
def matching (session_id : Option Nat) (s : Store) : Store :=
  match session_id with
  | none => s
  | some sid => s.filter (fun r => r.session_id == some sid)

/-- Comparator for `ORDER BY File.updated_at DESC`. -/
def updatedDesc (a b : FileRecord) : Bool :=
  b.updated_at ≤ a.updated_at

/-- `FileService.get_list`: filter by optional `session_id`, order by
`updated_at` descending, apply `OFFSET (page-1)*10 LIMIT 10`, and return
the page together with the total matching count. -/
def get_list (page : Nat) (session_id : Option Nat) (s : Store) :
    List FileRecord × Nat :=
  let limit := 10
  let offset := (page - 1) * limit
  let filtered := matching session_id s
  let sorted := filtered.mergeSort updatedDesc
  ((sorted.drop offset).take limit, filtered.length)

/-- Replace the row with primary key `i` by `r` (what committing the
mutated ORM object does to the table). -/
def putRow (i : Nat) (r : FileRecord) (s : Store) : Store :=
  s.map (fun g => if g.id == i then r else g)

/-- The in-memory assignments of `FileService.update_metadata`: each
non-`None` field of the `FileUpdate` is assigned, the rest are left
alone. -/
def patched (file_data : FileUpdate) (file : FileRecord) : FileRecord :=
  { file with
    filename := file_data.filename.getD file.filename
    description :=
      match file_data.description with
      | some d => some d
      | none => file.description }

/-- The row after `FileService.update_metadata`'s commit: `updated_at` is
refreshed exactly when some assigned value differs from the stored one
(equal-value assignments produce empty history, so no `UPDATE` is emitted
and the `onupdate` clock never fires). -/
def metaResult (now : Nat) (file_data : FileUpdate) (file : FileRecord) :
    FileRecord :=
  if (patched file_data file).filename ≠ file.filename
      ∨ (patched file_data file).description ≠ file.description then
    { patched file_data file with updated_at := now }
  else patched file_data file

/-- `FileService.update_metadata`: fetch the row; if absent return `none`;
otherwise assign each non-`None` field of the `FileUpdate`, commit, and
return the row. -/
def update_metadata (now : Nat) (file_id : Nat) (file_data : FileUpdate)
    (s : Store) : Option FileRecord × Store :=
  match get_by_id file_id s with
  | none => (none, s)
  | some file =>
    (some (metaResult now file_data file),
      putRow file_id (metaResult now file_data file) s)

/-- The in-memory assignments of `FileService.update_content`: `filename`,
`content_type`, `size = len(content)` and `content` are all assigned. -/
def replaced (filename content_type : String) (content : List Nat)
    (file : FileRecord) : FileRecord :=
  { file with
    filename := filename
    content_type := content_type
    size := content.length
    content := content }

/-- The row after `FileService.update_content`'s commit: `updated_at` is
refreshed exactly when some of the four assigned values differs from the
stored one (same `UPDATE`-emission semantics as for the metadata
update). -/
def contentResult (now : Nat) (filename content_type : String)
    (content : List Nat) (file : FileRecord) : FileRecord :=
  if (replaced filename content_type content file).filename ≠ file.filename
      ∨ (replaced filename content_type content file).content_type ≠ file.content_type
      ∨ (replaced filename content_type content file).size ≠ file.size
      ∨ (replaced filename content_type content file).content ≠ file.content then
    { replaced filename content_type content file with updated_at := now }
  else replaced filename content_type content file

/-- `FileService.update_content`: fetch the row; if absent return `none`;
otherwise overwrite `filename`, `content_type`, `size := len(content)` and
`content` with the supplied values, commit, and return the row. -/
def update_content (now : Nat) (file_id : Nat) (filename content_type : String)
    (content : List Nat) (s : Store) : Option FileRecord × Store :=
  match get_by_id file_id s with
  | none => (none, s)
  | some file =>
    (some (contentResult now filename content_type content file),
      putRow file_id (contentResult now filename content_type content file) s)

/-- `FileService.delete`: fetch the row; if absent return `False`;
otherwise delete it and return `True`. -/
def delete (file_id : Nat) (s : Store) : Bool × Store :=
  match get_by_id file_id s with
  | none => (false, s)
  | some _ => (true, s.filter (fun g => !(g.id == file_id)))

end FileService

/-! ## HTTP layer (`src/app/api/v1/endpoints/files.py`) -/

/-- `Settings.MAX_FILE_SIZE` default (`src/app/core/config.py`):
`10 * 1024 * 1024` bytes. -/
def defaultMaxFileSize : Nat := 10 * 1024 * 1024

/-- An `HTTPException` as raised by the endpoints: status code and detail. -/
structure HttpError where
  status : Nat
  detail : String
deriving Repr, DecidableEq

/-- The 413 error raised when `len(content) > settings.MAX_FILE_SIZE`:
`detail = f"File too large. Maximum size is {settings.MAX_FILE_SIZE // (1024 * 1024)}MB"`. -/
def payloadTooLarge (maxFileSize : Nat) : HttpError :=
  { status := 413
    detail := "File too large. Maximum size is "
      ++ toString (maxFileSize / (1024 * 1024)) ++ "MB" }

/-- The 404 error: `detail = f"File {file_id} not found"`. -/
def notFound (file_id : Nat) : HttpError :=
  { status := 404, detail := "File " ++ toString file_id ++ " not found" }

/-- `upload_file` (POST `/files`): read the content, reject with 413 when it
exceeds `MAX_FILE_SIZE`, otherwise create the record with the upload's
filename defaulted to `"unnamed"` and content type to
`"application/octet-stream"`.  Returns the created record and the new
store. -/
def upload_file (maxFileSize now newId : Nat)
    (uploadFilename uploadContentType : Option String) (content : List Nat)
    (session_id : Option Nat) (description : Option String) (s : Store) :
    Except HttpError (FileRecord × Store) :=
  if content.length > maxFileSize then
    .error (payloadTooLarge maxFileSize)
  else
    .ok (FileService.create now newId (uploadFilename.getD "unnamed")
      (uploadContentType.getD "application/octet-stream")
      content session_id description s)

/-- The body of the paginated list response before the derived fields
(`src/app/schemas/file.py`, class `FileListResponse`); `list_files` builds
it with `limit = FILES_PER_PAGE = 10`. -/
structure FileListResponse where
  items : List FileRecord
  total : Nat
  page : Nat
  limit : Nat
deriving Repr, DecidableEq

/-- `FileListResponse.total_pages`: `0` if `limit == 0`, else
`(total + limit - 1) // limit`. -/
def FileListResponse.total_pages (r : FileListResponse) : Nat :=
  if r.limit = 0 then 0 else (r.total + r.limit - 1) / r.limit

/-- `FileListResponse.has_next`: `page < total_pages`. -/
def FileListResponse.has_next (r : FileListResponse) : Bool :=
  r.page < r.total_pages

/-- `FileListResponse.has_prev`: `page > 1`. -/
def FileListResponse.has_prev (r : FileListResponse) : Bool :=
  1 < r.page

/-- `list_files` (GET `/files`): call `get_list` and wrap it in a
`FileListResponse` with the requested page and `limit = 10`. -/
def list_files (page : Nat) (session_id : Option Nat) (s : Store) :
    FileListResponse :=
  let r := FileService.get_list page session_id s
  { items := r.1, total := r.2, page := page, limit := 10 }

/-- The download response (`fastapi.responses.Response` as constructed in
`download_file`): body, media type and the two explicit headers. -/
structure DownloadResponse where
  content : List Nat
  media_type : String
  contentDisposition : String
  contentLength : String
deriving Repr, DecidableEq

/-- `download_file` (GET `/files/{id}/download`): 404 when the record is
absent, else the raw content with `media_type = file.content_type`,
`Content-Disposition: attachment; filename="<file.filename>"` and
`Content-Length = str(file.size)`. -/
def download_file (file_id : Nat) (s : Store) :
    Except HttpError DownloadResponse :=
  match FileService.get_by_id file_id s with
  | none => .error (notFound file_id)
  | some file =>
    .ok { content := file.content
          media_type := file.content_type
          contentDisposition :=
            "attachment; filename=\"" ++ file.filename ++ "\""
          contentLength := toString file.size }

/-- `replace_file` (PUT `/files/{id}`): read the content, reject with 413
when it exceeds `MAX_FILE_SIZE` (this check runs before any lookup), then
call `update_content` with the same filename / content-type defaulting as
`upload_file`; 404 when the record is absent. -/
def replace_file (maxFileSize now : Nat) (file_id : Nat)
    (uploadFilename uploadContentType : Option String) (content : List Nat)
    (s : Store) : Except HttpError (FileRecord × Store) :=
  if content.length > maxFileSize then
    .error (payloadTooLarge maxFileSize)
  else
    match FileService.update_content now file_id
        (uploadFilename.getD "unnamed")
        (uploadContentType.getD "application/octet-stream") content s with
    | (none, _) => .error (notFound file_id)
    | (some f, s') => .ok (f, s')

/-- `delete_file` (DELETE `/files/{id}`): 204 (modelled as `.ok` with the
new store) when the service reports success, 404 otherwise. -/
def delete_file (file_id : Nat) (s : Store) : Except HttpError Store :=
  let r := FileService.delete file_id s
  if r.1 then .ok r.2 else .error (notFound file_id)

/-! ## Operation sequences

The public mutating operations, for invariants quantified over arbitrary
call sequences.  Each constructor carries the database clock value `now`
at the time of the call (and for `create` the generated id). -/

/-- One public mutating operation of the service. -/
inductive Op where
  | create (now newId : Nat) (filename content_type : String)
      (content : List Nat) (session_id : Option Nat)
      (description : Option String)
  | updateMetadata (now : Nat) (file_id : Nat) (file_data : FileUpdate)
  | updateContent (now : Nat) (file_id : Nat)
      (filename content_type : String) (content : List Nat)
  | delete (file_id : Nat)
deriving Repr, DecidableEq

/-- Apply one operation to the store, discarding the returned value. -/
def Op.apply (op : Op) (s : Store) : Store :=
  match op with
  | .create now newId fn ct content sid d =>
    (FileService.create now newId fn ct content sid d s).2
  | .updateMetadata now i u => (FileService.update_metadata now i u s).2
  | .updateContent now i fn ct content =>
    (FileService.update_content now i fn ct content s).2
  | .delete i => (FileService.delete i s).2

/-- Run a sequence of operations left to right. -/
def runOps (ops : List Op) (s : Store) : Store :=
  ops.foldl (fun st op => op.apply st) s

/-! ## Basic lemmas about the service operations -/

namespace FileService

theorem mem_putRow {g r : FileRecord} {i : Nat} {s : Store}
    (hg : g ∈ putRow i r s) : g = r ∨ g ∈ s := by
  simp only [putRow, List.mem_map] at hg
  obtain ⟨a, ha, hag⟩ := hg
  split at hag
  · exact Or.inl hag.symm
  · exact Or.inr (hag ▸ ha)

theorem update_metadata_of_none {now i : Nat} {u : FileUpdate} {s : Store}
    (h : get_by_id i s = none) :
    update_metadata now i u s = (none, s) := by
  unfold update_metadata; rw [h]

theorem update_metadata_of_some {now i : Nat} {u : FileUpdate} {s : Store}
    {file : FileRecord} (h : get_by_id i s = some file) :
    update_metadata now i u s =
      (some (metaResult now u file), putRow i (metaResult now u file) s) := by
  unfold update_metadata; rw [h]

theorem update_content_of_none {now i : Nat} {fn ct : String}
    {content : List Nat} {s : Store} (h : get_by_id i s = none) :
    update_content now i fn ct content s = (none, s) := by
  unfold update_content; rw [h]

theorem update_content_of_some {now i : Nat} {fn ct : String}
    {content : List Nat} {s : Store} {file : FileRecord}
    (h : get_by_id i s = some file) :
    update_content now i fn ct content s =
      (some (contentResult now fn ct content file),
        putRow i (contentResult now fn ct content file) s) := by
  unfold update_content; rw [h]

theorem delete_of_none {i : Nat} {s : Store} (h : get_by_id i s = none) :
    delete i s = (false, s) := by
  unfold delete; rw [h]

theorem delete_of_some {i : Nat} {s : Store} {file : FileRecord}
    (h : get_by_id i s = some file) :
    delete i s = (true, s.filter (fun g => !(g.id == i))) := by
  unfold delete; rw [h]

theorem metaResult_id (now : Nat) (u : FileUpdate) (file : FileRecord) :
    (metaResult now u file).id = file.id := by
  unfold metaResult patched; split <;> rfl

theorem metaResult_content_type (now : Nat) (u : FileUpdate)
    (file : FileRecord) :
    (metaResult now u file).content_type = file.content_type := by
  unfold metaResult patched; split <;> rfl

theorem metaResult_size (now : Nat) (u : FileUpdate) (file : FileRecord) :
    (metaResult now u file).size = file.size := by
  unfold metaResult patched; split <;> rfl

theorem metaResult_content (now : Nat) (u : FileUpdate) (file : FileRecord) :
    (metaResult now u file).content = file.content := by
  unfold metaResult patched; split <;> rfl

theorem metaResult_session_id (now : Nat) (u : FileUpdate)
    (file : FileRecord) :
    (metaResult now u file).session_id = file.session_id := by
  unfold metaResult patched; split <;> rfl

theorem metaResult_created_at (now : Nat) (u : FileUpdate)
    (file : FileRecord) :
    (metaResult now u file).created_at = file.created_at := by
  unfold metaResult patched; split <;> rfl

theorem metaResult_filename_of_none (now : Nat) {u : FileUpdate}
    (file : FileRecord) (h : u.filename = none) :
    (metaResult now u file).filename = file.filename := by
  unfold metaResult patched; rw [h]; split <;> rfl

theorem metaResult_filename_of_some (now : Nat) {u : FileUpdate}
    (file : FileRecord) {fn : String} (h : u.filename = some fn) :
    (metaResult now u file).filename = fn := by
  unfold metaResult patched; rw [h]; split <;> rfl

theorem metaResult_description_of_none (now : Nat) {u : FileUpdate}
    (file : FileRecord) (h : u.description = none) :
    (metaResult now u file).description = file.description := by
  unfold metaResult patched; rw [h]; split <;> rfl

theorem metaResult_description_of_some (now : Nat) {u : FileUpdate}
    (file : FileRecord) {d : String} (h : u.description = some d) :
    (metaResult now u file).description = some d := by
  unfold metaResult patched; rw [h]; split <;> rfl

theorem contentResult_filename (now : Nat) (fn ct : String)
    (content : List Nat) (file : FileRecord) :
    (contentResult now fn ct content file).filename = fn := by
  unfold contentResult replaced; split <;> rfl

theorem contentResult_content_type (now : Nat) (fn ct : String)
    (content : List Nat) (file : FileRecord) :
    (contentResult now fn ct content file).content_type = ct := by
  unfold contentResult replaced; split <;> rfl

theorem contentResult_size (now : Nat) (fn ct : String)
    (content : List Nat) (file : FileRecord) :
    (contentResult now fn ct content file).size = content.length := by
  unfold contentResult replaced; split <;> rfl

theorem contentResult_content (now : Nat) (fn ct : String)
    (content : List Nat) (file : FileRecord) :
    (contentResult now fn ct content file).content = content := by
  unfold contentResult replaced; split <;> rfl

theorem contentResult_id (now : Nat) (fn ct : String)
    (content : List Nat) (file : FileRecord) :
    (contentResult now fn ct content file).id = file.id := by
  unfold contentResult replaced; split <;> rfl

theorem contentResult_session_id (now : Nat) (fn ct : String)
    (content : List Nat) (file : FileRecord) :
    (contentResult now fn ct content file).session_id = file.session_id := by
  unfold contentResult replaced; split <;> rfl

theorem contentResult_description (now : Nat) (fn ct : String)
    (content : List Nat) (file : FileRecord) :
    (contentResult now fn ct content file).description = file.description := by
  unfold contentResult replaced; split <;> rfl

theorem contentResult_created_at (now : Nat) (fn ct : String)
    (content : List Nat) (file : FileRecord) :
    (contentResult now fn ct content file).created_at = file.created_at := by
  unfold contentResult replaced; split <;> rfl

end FileService

/-! ## C1 — `size` always equals `len(content)` -/

/-- Invariant: every stored row's `size` field equals the byte length of
its `content` field. -/
def SizeInv (s : Store) : Prop := ∀ r ∈ s, r.size = r.content.length

theorem SizeInv_putRow {i : Nat} {r : FileRecord} {s : Store}
    (h : SizeInv s) (hr : r.size = r.content.length) :
    SizeInv (FileService.putRow i r s) := by
  intro g hg
  rcases FileService.mem_putRow hg with hgr | hgs
  · exact hgr ▸ hr
  · exact h g hgs

theorem SizeInv_apply (op : Op) {s : Store} (h : SizeInv s) :
    SizeInv (op.apply s) := by
  cases op with
  | create now newId fn ct content sid d =>
    intro r hr
    simp only [Op.apply, FileService.create, List.mem_append,
      List.mem_singleton] at hr
    rcases hr with hr | hr
    · exact h r hr
    · subst hr; rfl
  | updateMetadata now i u =>
    cases hfind : FileService.get_by_id i s with
    | none =>
      simpa [Op.apply, FileService.update_metadata_of_none hfind] using h
    | some file =>
      have hmem := List.mem_of_find?_eq_some hfind
      simp only [Op.apply, FileService.update_metadata_of_some hfind]
      exact SizeInv_putRow h
        (by rw [FileService.metaResult_size, FileService.metaResult_content]
            exact h file hmem)
  | updateContent now i fn ct content =>
    cases hfind : FileService.get_by_id i s with
    | none =>
      simpa [Op.apply, FileService.update_content_of_none hfind] using h
    | some file =>
      simp only [Op.apply, FileService.update_content_of_some hfind]
      exact SizeInv_putRow h
        (by rw [FileService.contentResult_size, FileService.contentResult_content])
  | delete i =>
    cases hfind : FileService.get_by_id i s with
    | none => simpa [Op.apply, FileService.delete_of_none hfind] using h
    | some file =>
      simp only [Op.apply, FileService.delete_of_some hfind]
      exact fun r hr => h r (List.mem_of_mem_filter hr)

/-- C1: after any sequence of the public operations applied to a store in
which every record satisfies `size = len(content)` (in particular the
empty store), every stored record still satisfies `size = len(content)`:
`create` sets `size = len(content)`, `update_content` sets both together,
and `update_metadata` touches neither. -/
theorem size_always_equals_content_length (ops : List Op) (s : Store)
    (h : SizeInv s) : SizeInv (runOps ops s) := by
  induction ops generalizing s with
  | nil => exact h
  | cons op rest ih => exact ih (op.apply s) (SizeInv_apply op h)

/-- Concrete witness data: a create followed by a content replace and a
metadata patch, starting from the empty table. -/
def demoOps : List Op :=
  [Op.create 1 100 "a.txt" "text/plain" [104, 105] none none,
   Op.updateContent 2 100 "b.bin" "application/octet-stream" [0, 1, 2, 3],
   Op.updateMetadata 3 100 ⟨some "c.txt", some "notes"⟩]

theorem size_always_equals_content_length_witness :
    SizeInv (runOps demoOps []) :=
  size_always_equals_content_length demoOps [] (by simp [SizeInv])

/-! ## C2 — metadata update is a partial patch -/

theorem metaResult_filename_eq_patched (now : Nat) (u : FileUpdate)
    (file : FileRecord) :
    (FileService.metaResult now u file).filename =
      (FileService.patched u file).filename := by
  unfold FileService.metaResult; split <;> rfl

theorem metaResult_description_eq_patched (now : Nat) (u : FileUpdate)
    (file : FileRecord) :
    (FileService.metaResult now u file).description =
      (FileService.patched u file).description := by
  unfold FileService.metaResult; split <;> rfl

theorem metaResult_updated_at (now : Nat) (u : FileUpdate)
    (file : FileRecord) :
    ((FileService.metaResult now u file).filename ≠ file.filename ∨
     (FileService.metaResult now u file).description ≠ file.description →
       (FileService.metaResult now u file).updated_at = now) ∧
    ((FileService.metaResult now u file).filename = file.filename ∧
     (FileService.metaResult now u file).description = file.description →
       (FileService.metaResult now u file).updated_at = file.updated_at) := by
  by_cases hc : (FileService.patched u file).filename ≠ file.filename ∨
      (FileService.patched u file).description ≠ file.description
  · refine ⟨fun _ => ?_, fun h12 => ?_⟩
    · unfold FileService.metaResult; rw [if_pos hc]
    · exfalso
      rcases hc with hne | hne
      · exact hne (by rw [← metaResult_filename_eq_patched now u file]
                      exact h12.1)
      · exact hne (by rw [← metaResult_description_eq_patched now u file]
                      exact h12.2)
  · push_neg at hc
    refine ⟨fun hne => ?_, fun _ => ?_⟩
    · exfalso
      rcases hne with hne | hne
      · exact hne (by rw [metaResult_filename_eq_patched now u file, hc.1])
      · exact hne (by rw [metaResult_description_eq_patched now u file, hc.2])
    · unfold FileService.metaResult
      rw [if_neg (by push_neg; exact hc)]
      rfl

/-- C2 (amended): `update_metadata` applies exactly the non-null supplied
fields and leaves every other column alone; `updated_at` is refreshed when
an applied field actually changes the stored value, and stays unchanged
when no stored value changes — in particular, supplying neither field
leaves `updated_at` where it was (no column change means no `UPDATE` is
emitted, so the `onupdate` clock never fires). -/
theorem update_metadata_partial_patch (now i : Nat) (u : FileUpdate)
    (s : Store) (file : FileRecord)
    (h : FileService.get_by_id i s = some file) :
    (FileService.update_metadata now i u s).1 =
      some (FileService.metaResult now u file) ∧
    (u.filename = none →
      (FileService.metaResult now u file).filename = file.filename) ∧
    (∀ fn, u.filename = some fn →
      (FileService.metaResult now u file).filename = fn) ∧
    (u.description = none →
      (FileService.metaResult now u file).description = file.description) ∧
    (∀ d, u.description = some d →
      (FileService.metaResult now u file).description = some d) ∧
    (FileService.metaResult now u file).content_type = file.content_type ∧
    (FileService.metaResult now u file).size = file.size ∧
    (FileService.metaResult now u file).content = file.content ∧
    (FileService.metaResult now u file).session_id = file.session_id ∧
    (FileService.metaResult now u file).created_at = file.created_at ∧
    ((FileService.metaResult now u file).filename ≠ file.filename ∨
     (FileService.metaResult now u file).description ≠ file.description →
       (FileService.metaResult now u file).updated_at = now) ∧
    ((FileService.metaResult now u file).filename = file.filename ∧
     (FileService.metaResult now u file).description = file.description →
       (FileService.metaResult now u file).updated_at = file.updated_at) :=
  ⟨by rw [FileService.update_metadata_of_some h],
   fun hfn => FileService.metaResult_filename_of_none now file hfn,
   fun _ hfn => FileService.metaResult_filename_of_some now file hfn,
   fun hd => FileService.metaResult_description_of_none now file hd,
   fun _ hd => FileService.metaResult_description_of_some now file hd,
   FileService.metaResult_content_type now u file,
   FileService.metaResult_size now u file,
   FileService.metaResult_content now u file,
   FileService.metaResult_session_id now u file,
   FileService.metaResult_created_at now u file,
   (metaResult_updated_at now u file).1,
   (metaResult_updated_at now u file).2⟩

/-- A concrete stored record used to instantiate theorems. -/
def rec0 : FileRecord :=
  { id := 1, filename := "a.txt", content_type := "text/plain", size := 2,
    content := [104, 105], session_id := some 7, description := some "d",
    created_at := 0, updated_at := 0 }

theorem update_metadata_partial_patch_witness :
    FileService.get_by_id 1 [rec0] = some rec0 ∧
    (FileService.update_metadata 5 1 ⟨none, some "new"⟩ [rec0]).1 =
      some (FileService.metaResult 5 ⟨none, some "new"⟩ rec0) :=
  ⟨by decide,
   (update_metadata_partial_patch 5 1 ⟨none, some "new"⟩ [rec0] rec0
     (by decide)).1⟩

/-- C2 counterexample: a metadata update supplying neither `filename` nor
`description` (call time `5`) returns the record with `updated_at` still
`0` — `updated_at` does not advance to the call time as the claim
states. -/
theorem update_metadata_no_fields_leaves_updated_at :
    (FileService.update_metadata 5 1 ⟨none, none⟩ [rec0]).1.map
        FileRecord.updated_at = some 0 ∧ (0 : Nat) ≠ 5 := by decide

/-! ## C3 — size-limit boundary on upload and content replace -/

/-- C3: for both upload and content replace, content of exactly the
configured maximum length is accepted while one byte over is rejected with
the 413 `PayloadTooLarge` error, whose message states the configured limit
in MB (`MAX_FILE_SIZE // (1024 * 1024)`; `"10MB"` for the default
10 MiB); acceptance of an upload depends only on
`len(content) > MAX_FILE_SIZE`. -/
theorem upload_size_limit_boundary (maxFileSize now newId i : Nat)
    (fn ct : Option String) (content : List Nat) (sid : Option Nat)
    (d : Option String) (s : Store) (file : FileRecord)
    (hfound : FileService.get_by_id i s = some file) :
    (content.length = maxFileSize →
      upload_file maxFileSize now newId fn ct content sid d s =
        .ok (FileService.create now newId (fn.getD "unnamed")
          (ct.getD "application/octet-stream") content sid d s) ∧
      ∃ f s', replace_file maxFileSize now i fn ct content s = .ok (f, s')) ∧
    (content.length = maxFileSize + 1 →
      upload_file maxFileSize now newId fn ct content sid d s =
        .error (payloadTooLarge maxFileSize) ∧
      replace_file maxFileSize now i fn ct content s =
        .error (payloadTooLarge maxFileSize)) ∧
    (payloadTooLarge maxFileSize).status = 413 ∧
    (payloadTooLarge maxFileSize).detail =
      "File too large. Maximum size is "
        ++ toString (maxFileSize / (1024 * 1024)) ++ "MB" ∧
    (payloadTooLarge defaultMaxFileSize).detail =
      "File too large. Maximum size is 10MB" ∧
    ((∃ v, upload_file maxFileSize now newId fn ct content sid d s = .ok v) ↔
      ¬ content.length > maxFileSize) := by
  refine ⟨fun hlen => ⟨?_, ?_⟩, fun hlen => ⟨?_, ?_⟩, rfl, rfl, by decide, ?_, ?_⟩
  · unfold upload_file
    rw [if_neg (by omega)]
  · unfold replace_file
    rw [if_neg (by omega), FileService.update_content_of_some hfound]
    exact ⟨_, _, rfl⟩
  · unfold upload_file
    rw [if_pos (by omega)]
  · unfold replace_file
    rw [if_pos (by omega)]
  · rintro ⟨v, hv⟩ hgt
    unfold upload_file at hv
    rw [if_pos hgt] at hv
    cases hv
  · intro hle
    exact ⟨FileService.create now newId (fn.getD "unnamed")
      (ct.getD "application/octet-stream") content sid d s,
      by unfold upload_file; rw [if_neg hle]⟩

theorem upload_size_limit_boundary_witness :
    FileService.get_by_id 1 [rec0] = some rec0 ∧
    (payloadTooLarge defaultMaxFileSize).detail =
      "File too large. Maximum size is 10MB" :=
  ⟨by decide,
   (upload_size_limit_boundary defaultMaxFileSize 5 100 1 none none [0]
     none none [rec0] rec0 (by decide)).2.2.2.2.1⟩

/-! ## C4 — paginated listing -/

/-- C4: for every `page ≥ 1` and optional `session_id`, `get_list` returns
exactly the slice at positions `(page-1)*10 .. page*10 - 1` of the
matching set ordered by `updated_at` descending, together with the total
matching count; the `session_id` filter is applied to both the page query
and the count, and a page past the end yields an empty list with the
correct total. -/
theorem get_list_returns_ordered_page (page : Nat) (hpage : 1 ≤ page)
    (sid : Option Nat) (s : Store) :
    ∃ sorted : List FileRecord,
      sorted.Perm (FileService.matching sid s) ∧
      sorted.Pairwise (fun a b => b.updated_at ≤ a.updated_at) ∧
      (FileService.get_list page sid s).1 =
        (sorted.drop ((page - 1) * 10)).take 10 ∧
      (FileService.get_list page sid s).2 =
        (FileService.matching sid s).length ∧
      ((FileService.matching sid s).length ≤ (page - 1) * 10 →
        (FileService.get_list page sid s).1 = []) := by
  refine ⟨(FileService.matching sid s).mergeSort FileService.updatedDesc,
    List.mergeSort_perm _ _, ?_, rfl, rfl, ?_⟩
  · have hs := @List.sorted_mergeSort _ FileService.updatedDesc
      (fun a b c hab hbc => by
        simp only [FileService.updatedDesc, decide_eq_true_eq] at *
        omega)
      (fun a b => by
        simp only [FileService.updatedDesc, Bool.or_eq_true, decide_eq_true_eq]
        omega)
      (FileService.matching sid s)
    exact hs.imp (fun h => by
      simpa only [FileService.updatedDesc, decide_eq_true_eq] using h)
  · intro hle
    show (((FileService.matching sid s).mergeSort
      FileService.updatedDesc).drop ((page - 1) * 10)).take 10 = []
    rw [List.drop_eq_nil_of_le (by simpa using hle), List.take_nil]

theorem get_list_returns_ordered_page_witness :
    ∃ sorted : List FileRecord,
      sorted.Perm (FileService.matching (some 7) [rec0]) ∧
      sorted.Pairwise (fun a b => b.updated_at ≤ a.updated_at) ∧
      (FileService.get_list 2 (some 7) [rec0]).1 =
        (sorted.drop ((2 - 1) * 10)).take 10 ∧
      (FileService.get_list 2 (some 7) [rec0]).2 =
        (FileService.matching (some 7) [rec0]).length ∧
      ((FileService.matching (some 7) [rec0]).length ≤ (2 - 1) * 10 →
        (FileService.get_list 2 (some 7) [rec0]).1 = []) :=
  get_list_returns_ordered_page 2 (by decide) (some 7) [rec0]

/-! ## C5 — derived pagination fields -/

/-- C5: in every list response, `total_pages` is `0` when `limit = 0` and
otherwise the ceiling of `total / limit` (the ceiling-division `⌈/⌉`,
characterised as the least `k` with `total ≤ limit * k`);
`has_next = page < total_pages` and `has_prev = page > 1`. -/
theorem listResponse_derived_fields (r : FileListResponse) :
    (r.limit = 0 → r.total_pages = 0) ∧
    (r.limit ≠ 0 → r.total_pages = r.total ⌈/⌉ r.limit ∧
      ∀ k : Nat, r.total_pages ≤ k ↔ r.total ≤ r.limit * k) ∧
    r.has_next = decide (r.page < r.total_pages) ∧
    r.has_prev = decide (1 < r.page) := by
  refine ⟨fun h => by simp [FileListResponse.total_pages, h],
    fun h => ⟨?_, ?_⟩, rfl, rfl⟩
  · simp [FileListResponse.total_pages, h, Nat.ceilDiv_eq_add_pred_div]
  · intro k
    have h0 : 0 < r.limit := Nat.pos_of_ne_zero h
    have he : r.total_pages = r.total ⌈/⌉ r.limit := by
      simp [FileListResponse.total_pages, h, Nat.ceilDiv_eq_add_pred_div]
    rw [he, ceilDiv_le_iff_le_smul h0, smul_eq_mul]

theorem listResponse_derived_fields_witness :
    (10 : Nat) ≠ 0 ∧
    FileListResponse.total_pages ⟨[], 15, 2, 10⟩ = 15 ⌈/⌉ 10 :=
  ⟨by decide, ((listResponse_derived_fields ⟨[], 15, 2, 10⟩).2.1
    (by decide)).1⟩

/-! ## C6 — content replace overwrites all four fields -/

theorem contentResult_cond_iff (fn ct : String) (content : List Nat)
    (file : FileRecord) :
    ((FileService.replaced fn ct content file).filename ≠ file.filename
      ∨ (FileService.replaced fn ct content file).content_type ≠ file.content_type
      ∨ (FileService.replaced fn ct content file).size ≠ file.size
      ∨ (FileService.replaced fn ct content file).content ≠ file.content) ↔
    (fn ≠ file.filename ∨ ct ≠ file.content_type
      ∨ content.length ≠ file.size ∨ content ≠ file.content) := Iff.rfl

theorem contentResult_updated_at (now : Nat) (fn ct : String)
    (content : List Nat) (file : FileRecord) :
    ((fn ≠ file.filename ∨ ct ≠ file.content_type
        ∨ content.length ≠ file.size ∨ content ≠ file.content) →
      (FileService.contentResult now fn ct content file).updated_at = now) ∧
    (fn = file.filename ∧ ct = file.content_type
        ∧ content.length = file.size ∧ content = file.content →
      (FileService.contentResult now fn ct content file).updated_at =
        file.updated_at) := by
  by_cases hc : fn ≠ file.filename ∨ ct ≠ file.content_type
      ∨ content.length ≠ file.size ∨ content ≠ file.content
  · refine ⟨fun _ => ?_, fun heq => ?_⟩
    · unfold FileService.contentResult
      rw [if_pos ((contentResult_cond_iff fn ct content file).mpr hc)]
    · exfalso
      rcases hc with h | h | h | h
      · exact h heq.1
      · exact h heq.2.1
      · exact h heq.2.2.1
      · exact h heq.2.2.2
  · refine ⟨fun h => absurd h hc, fun _ => ?_⟩
    unfold FileService.contentResult
    rw [if_neg (fun h => hc ((contentResult_cond_iff fn ct content file).mp h))]
    rfl

/-- C6 (amended): for every existing record, `update_content` sets all
four fields `filename`, `content_type`, `size = len(content)`, `content`
to the supplied values unconditionally (no invocation can apply only a
proper subset of them) and leaves `id`, `session_id`, `description`,
`created_at` alone; `updated_at` is refreshed when some of the four stored
values actually changes, and stays unchanged when the supplied values all
equal the stored ones (no column change means no `UPDATE`, so the
`onupdate` clock never fires); for a missing id it returns the not-found
signal with the store unchanged. -/
theorem update_content_overwrites_all_fields (now i : Nat) (fn ct : String)
    (content : List Nat) (s : Store) :
    (∀ file, FileService.get_by_id i s = some file →
      (FileService.update_content now i fn ct content s).1 =
        some (FileService.contentResult now fn ct content file) ∧
      (FileService.contentResult now fn ct content file).filename = fn ∧
      (FileService.contentResult now fn ct content file).content_type = ct ∧
      (FileService.contentResult now fn ct content file).size =
        content.length ∧
      (FileService.contentResult now fn ct content file).content = content ∧
      (FileService.contentResult now fn ct content file).id = file.id ∧
      (FileService.contentResult now fn ct content file).session_id =
        file.session_id ∧
      (FileService.contentResult now fn ct content file).description =
        file.description ∧
      (FileService.contentResult now fn ct content file).created_at =
        file.created_at ∧
      ((fn ≠ file.filename ∨ ct ≠ file.content_type
          ∨ content.length ≠ file.size ∨ content ≠ file.content) →
        (FileService.contentResult now fn ct content file).updated_at = now) ∧
      (fn = file.filename ∧ ct = file.content_type
          ∧ content.length = file.size ∧ content = file.content →
        (FileService.contentResult now fn ct content file).updated_at =
          file.updated_at)) ∧
    (FileService.get_by_id i s = none →
      FileService.update_content now i fn ct content s = (none, s)) :=
  ⟨fun file h =>
    ⟨by rw [FileService.update_content_of_some h],
     FileService.contentResult_filename now fn ct content file,
     FileService.contentResult_content_type now fn ct content file,
     FileService.contentResult_size now fn ct content file,
     FileService.contentResult_content now fn ct content file,
     FileService.contentResult_id now fn ct content file,
     FileService.contentResult_session_id now fn ct content file,
     FileService.contentResult_description now fn ct content file,
     FileService.contentResult_created_at now fn ct content file,
     (contentResult_updated_at now fn ct content file).1,
     (contentResult_updated_at now fn ct content file).2⟩,
   fun h => FileService.update_content_of_none h⟩

theorem update_content_overwrites_all_fields_witness :
    FileService.get_by_id 1 [rec0] = some rec0 ∧
    (FileService.update_content 5 1 "b.bin" "application/json" [1, 2, 3]
      [rec0]).1 =
      some (FileService.contentResult 5 "b.bin" "application/json" [1, 2, 3]
        rec0) :=
  ⟨by decide,
   ((update_content_overwrites_all_fields 5 1 "b.bin" "application/json"
     [1, 2, 3] [rec0]).1 rec0 (by decide)).1⟩

/-- C6 counterexample: replacing a record's content with values identical
to those stored (call time `5`) leaves `updated_at` at `0` — no column
changes, so no `UPDATE` is emitted and `updated_at` is not refreshed,
contradicting the claim that `update_content` always updates
`updated_at`. -/
theorem update_content_idempotent_leaves_updated_at :
    (FileService.update_content 5 1 "a.txt" "text/plain" [104, 105]
      [rec0]).1.map FileRecord.updated_at = some 0 ∧ (0 : Nat) ≠ 5 := by
  decide

/-! ## C7 — delete semantics -/

theorem get_by_id_filter_ne (i : Nat) (s : Store) :
    FileService.get_by_id i (s.filter (fun g => !(g.id == i))) = none := by
  unfold FileService.get_by_id
  rw [List.find?_eq_none]
  intro x hx
  have := (List.mem_filter.mp hx).2
  simp only [Bool.not_eq_true'] at this
  simp [this]

/-- C7: `delete` returns `True` and removes the record exactly when a
record with that id exists, and returns `False` otherwise; fetching after
a delete finds nothing, a second delete returns `False`, and the delete
endpoint surfaces that as the 404 not-found error, not an internal
error. -/
theorem delete_semantics (i : Nat) (s : Store) :
    ((FileService.delete i s).1 = true ↔ FileService.get_by_id i s ≠ none) ∧
    (∀ r ∈ (FileService.delete i s).2, r.id ≠ i) ∧
    (∀ r ∈ s, r.id ≠ i → r ∈ (FileService.delete i s).2) ∧
    FileService.get_by_id i (FileService.delete i s).2 = none ∧
    (FileService.delete i (FileService.delete i s).2).1 = false ∧
    delete_file i (FileService.delete i s).2 = .error (notFound i) := by
  cases hfind : FileService.get_by_id i s with
  | none =>
    rw [FileService.delete_of_none hfind]
    have hall : ∀ r ∈ s, r.id ≠ i := by
      intro r hr
      have := List.find?_eq_none.mp hfind r hr
      simpa using this
    refine ⟨by simp [hfind], hall, fun r hr _ => hr, hfind, ?_, ?_⟩
    · rw [FileService.delete_of_none hfind]
    · unfold delete_file
      rw [FileService.delete_of_none hfind]
      rfl
  | some file =>
    rw [FileService.delete_of_some hfind]
    have hafter : FileService.get_by_id i
        (s.filter (fun g => !(g.id == i))) = none := get_by_id_filter_ne i s
    refine ⟨by simp [hfind], ?_, ?_, hafter, ?_, ?_⟩
    · intro r hr
      have := (List.mem_filter.mp hr).2
      simpa using this
    · intro r hr hne
      exact List.mem_filter.mpr ⟨hr, by simpa using hne⟩
    · rw [FileService.delete_of_none hafter]
    · unfold delete_file
      rw [FileService.delete_of_none hafter]
      rfl

theorem delete_semantics_witness :
    (FileService.delete 1 [rec0]).1 = true ↔
      FileService.get_by_id 1 [rec0] ≠ none :=
  (delete_semantics 1 [rec0]).1

/-! ## C8 — download reflects the stored record -/

theorem get_by_id_putRow {i : Nat} {r : FileRecord}
    (hr : (r.id == i) = true) :
    ∀ {s : Store} {file : FileRecord}, FileService.get_by_id i s = some file →
      FileService.get_by_id i (FileService.putRow i r s) = some r := by
  intro s
  induction s with
  | nil => intro file h; simp [FileService.get_by_id] at h
  | cons a t ih =>
    intro file h
    unfold FileService.get_by_id at h ⊢
    unfold FileService.putRow
    simp only [List.map_cons]
    by_cases ha : (a.id == i) = true
    · rw [if_pos ha]
      exact List.find?_cons_of_pos _ hr
    · rw [if_neg ha]
      rw [List.find?_cons_of_neg _ (by simpa using ha)] at h
      rw [List.find?_cons_of_neg _ (by simpa using ha)]
      exact ih h

/-- C8: for every existing record, `download_file` returns the record's
raw `content` with the response media type equal to the stored
`content_type`, a `Content-Disposition` attachment header naming the
stored `filename`, and a `Content-Length` header equal to the stored
`size`; the values are the ones currently stored — in particular, after a
successful content replace the response carries the replaced values; for a
missing id it returns the 404 not-found signal. -/
theorem download_reflects_current_record (i : Nat) (s : Store) :
    (∀ file, FileService.get_by_id i s = some file →
      download_file i s = .ok
        { content := file.content
          media_type := file.content_type
          contentDisposition :=
            "attachment; filename=\"" ++ file.filename ++ "\""
          contentLength := toString file.size }) ∧
    (FileService.get_by_id i s = none →
      download_file i s = .error (notFound i)) ∧
    (∀ now fn ct content s' f,
      FileService.update_content now i fn ct content s = (some f, s') →
      download_file i s' = .ok
        { content := content
          media_type := ct
          contentDisposition := "attachment; filename=\"" ++ fn ++ "\""
          contentLength := toString content.length }) := by
  refine ⟨?_, ?_, ?_⟩
  · intro file h
    unfold download_file
    rw [h]
  · intro h
    unfold download_file
    rw [h]
  · intro now fn ct content s' f hupd
    cases hfind : FileService.get_by_id i s with
    | none =>
      rw [FileService.update_content_of_none hfind] at hupd
      cases hupd
    | some file =>
      rw [FileService.update_content_of_some hfind] at hupd
      have hfind' : List.find? (fun r => r.id == i) s = some file := hfind
      have hid : ((FileService.contentResult now fn ct content file).id == i)
          = true := by
        rw [FileService.contentResult_id]
        have hp := List.find?_some hfind'
        exact hp
      have hs' : s' = FileService.putRow i
          (FileService.contentResult now fn ct content file) s :=
        (congrArg Prod.snd hupd).symm
      subst hs'
      unfold download_file
      rw [get_by_id_putRow hid hfind]
      simp only [FileService.contentResult_content,
        FileService.contentResult_content_type,
        FileService.contentResult_filename, FileService.contentResult_size]

theorem download_reflects_current_record_witness :
    FileService.get_by_id 1 [rec0] = some rec0 ∧
    download_file 1 [rec0] = .ok
      { content := rec0.content
        media_type := rec0.content_type
        contentDisposition :=
          "attachment; filename=\"" ++ rec0.filename ++ "\""
        contentLength := toString rec0.size } :=
  ⟨by decide,
   (download_reflects_current_record 1 [rec0]).1 rec0 (by decide)⟩

/-! ## C9 — size check runs before the existence check -/

/-- C9: in `replace_file` the size-limit check is performed before the
record lookup, so replacing a nonexistent id with oversized content yields
the 413 `PayloadTooLarge` error, not the 404 `NotFound` error. -/
theorem replace_checks_size_before_existence (maxFileSize now i : Nat)
    (fn ct : Option String) (content : List Nat) (s : Store)
    (hbig : content.length > maxFileSize)
    (habsent : FileService.get_by_id i s = none) :
    replace_file maxFileSize now i fn ct content s =
      .error (payloadTooLarge maxFileSize) ∧
    replace_file maxFileSize now i fn ct content s ≠
      .error (notFound i) := by
  have h1 : replace_file maxFileSize now i fn ct content s =
      .error (payloadTooLarge maxFileSize) := by
    unfold replace_file
    rw [if_pos hbig]
  refine ⟨h1, ?_⟩
  rw [h1]
  intro hcontra
  have h2 : payloadTooLarge maxFileSize = notFound i :=
    Except.error.inj hcontra
  have h3 : (413 : Nat) = 404 := congrArg HttpError.status h2
  omega

theorem replace_checks_size_before_existence_witness :
    replace_file 2 5 99 none none [0, 0, 0] [rec0] =
      .error (payloadTooLarge 2) :=
  (replace_checks_size_before_existence 2 5 99 none none [0, 0, 0] [rec0]
    (by decide) (by decide)).1

/-! ## C10 — a null description means "no change"; a non-null
description can never be reset to null -/

/-- Invariant: every stored row with primary key `j` has a non-null
description. -/
def DescInv (j : Nat) (s : Store) : Prop :=
  ∀ r ∈ s, r.id = j → r.description.isSome = true

/-- Whether an operation is a `create` generating the primary key `j`
(the one way a row with key `j` and a null description could appear). -/
def Op.createsId : Op → Nat → Prop
  | .create _ newId _ _ _ _ _, j => newId = j
  | _, _ => False

theorem metaResult_description_isSome (now : Nat) (u : FileUpdate)
    (file : FileRecord) (h : file.description.isSome = true) :
    (FileService.metaResult now u file).description.isSome = true := by
  cases hd : u.description with
  | none => rw [FileService.metaResult_description_of_none now file hd]; exact h
  | some d => rw [FileService.metaResult_description_of_some now file hd]; rfl

theorem DescInv_apply {j : Nat} (op : Op) {s : Store}
    (hop : ¬ op.createsId j) (h : DescInv j s) : DescInv j (op.apply s) := by
  cases op with
  | create now newId fn ct content sid d =>
    intro r hr hrj
    simp only [Op.apply, FileService.create, List.mem_append,
      List.mem_singleton] at hr
    rcases hr with hr | hr
    · exact h r hr hrj
    · exfalso
      apply hop
      subst hr
      exact hrj
  | updateMetadata now i u =>
    cases hfind : FileService.get_by_id i s with
    | none =>
      simpa [Op.apply, FileService.update_metadata_of_none hfind] using h
    | some file =>
      have hmem := List.mem_of_find?_eq_some hfind
      intro r hr hrj
      simp only [Op.apply, FileService.update_metadata_of_some hfind] at hr
      rcases FileService.mem_putRow hr with hre | hrs
      · subst hre
        apply metaResult_description_isSome
        apply h file hmem
        rw [← FileService.metaResult_id now u file]
        exact hrj
      · exact h r hrs hrj
  | updateContent now i fn ct content =>
    cases hfind : FileService.get_by_id i s with
    | none =>
      simpa [Op.apply, FileService.update_content_of_none hfind] using h
    | some file =>
      have hmem := List.mem_of_find?_eq_some hfind
      intro r hr hrj
      simp only [Op.apply, FileService.update_content_of_some hfind] at hr
      rcases FileService.mem_putRow hr with hre | hrs
      · subst hre
        rw [FileService.contentResult_description]
        apply h file hmem
        rw [← FileService.contentResult_id now fn ct content file]
        exact hrj
      · exact h r hrs hrj
  | delete i =>
    cases hfind : FileService.get_by_id i s with
    | none => simpa [Op.apply, FileService.delete_of_none hfind] using h
    | some file =>
      intro r hr hrj
      simp only [Op.apply, FileService.delete_of_some hfind] at hr
      exact h r (List.mem_of_mem_filter hr) hrj

theorem DescInv_runOps {j : Nat} (ops : List Op) {s : Store}
    (hops : ∀ op ∈ ops, ¬ op.createsId j) (h : DescInv j s) :
    DescInv j (runOps ops s) := by
  induction ops generalizing s with
  | nil => exact h
  | cons op rest ih =>
    exact ih (fun o ho => hops o (List.mem_cons_of_mem _ ho))
      (DescInv_apply op (hops op (List.mem_cons_self _ _)) h)

/-- C10: a metadata update whose `description` field is null leaves the
record's description exactly as stored (null means "no change", not
"clear"); and under any sequence of public operations none of which
creates a new row with key `j`, every stored row with key `j` that has a
non-null description keeps a non-null description — no public operation
can reset it to null. -/
theorem description_null_means_no_change (now i j : Nat) (u : FileUpdate)
    (s : Store) (ops : List Op)
    (hdesc : u.description = none)
    (hops : ∀ op ∈ ops, ¬ op.createsId j)
    (hinv : DescInv j s) :
    (∀ file, FileService.get_by_id i s = some file →
      (FileService.update_metadata now i u s).1.map FileRecord.description =
        some file.description) ∧
    DescInv j (runOps ops s) := by
  constructor
  · intro file hfind
    rw [FileService.update_metadata_of_some hfind]
    simp [FileService.metaResult_description_of_none now file hdesc]
  · exact DescInv_runOps ops hops hinv

theorem description_null_means_no_change_witness :
    (FileService.update_metadata 5 1 ⟨some "nm", none⟩ [rec0]).1.map
      FileRecord.description = some rec0.description :=
  (description_null_means_no_change 5 1 1 ⟨some "nm", none⟩ [rec0] []
    rfl (by simp) (by simp [DescInv, rec0])).1 rec0 (by decide)
